import Mathlib

/-!
Verification of the Tuya device discovery engine
(`src/plugins/tuya/src/discovery/{backoff,registry,types}.ts` and the
`DiscoveryController` in `controller.ts`).

The TypeScript source is shallowly embedded: JavaScript numbers that hold
millisecond quantities are modelled as `ℚ` where fractional arithmetic
matters (the backoff calculator) and as `ℤ`/`ℕ` where the code only ever
stores integer timestamps and counters; `undefined`-able fields become
`Option`; the registry's `Map<string, DiscoveryRecord>` becomes an
association list with JavaScript `Map.set`/`Map.delete` semantics; the
event-driven controller becomes an explicit transition system whose events
are the timer callbacks and probe completions of the Node.js event loop.
-/

/-! ## Data model (`types.ts`) -/

/-- `DiscoveryState` from `types.ts`: the three-valued state enum. -/
inductive DiscoveryState where
  | Candidate
  | Verified
  | Unverified
deriving DecidableEq, Repr

/-- `DiscoveryDeviceIdentity` from `types.ts`. -/
structure DiscoveryDeviceIdentity where
  devId : String
  name : String
  category : String
  productId : Option String := none
  icon : Option String := none
deriving DecidableEq, Repr

/-- `ProbeState` from `types.ts`; timestamps are `Date.now()` milliseconds. -/
structure ProbeState where
  lastProbeAt : Option Int := none
  lastSuccessAt : Option Int := none
  failureCount : Nat := 0
  backoffUntil : Option Int := none
deriving DecidableEq, Repr

/-- `FailureInfo` from `types.ts`. -/
structure FailureInfo where
  time : Int
  statusCode : Option Int := none
  message : Option String := none
deriving DecidableEq, Repr

/-- `DiscoveryRecord` from `types.ts`. -/
structure DiscoveryRecord where
  devId : String
  identity : DiscoveryDeviceIdentity
  state : DiscoveryState
  online : Option Bool := none
  probe : ProbeState
  lastFailure : Option FailureInfo := none
deriving DecidableEq, Repr

/-! ## Backoff calculator (`backoff.ts`) -/

/-- `BackoffOptions` from `backoff.ts`; `multiplier` and `jitterRatio` are
optional fields resolved with `?? 2` and `?? 0.2`. -/
structure BackoffOptions where
  baseMs : ℚ
  maxMs : ℚ
  multiplier : Option ℚ := none
  jitterRatio : Option ℚ := none
deriving DecidableEq, Repr

/-- JavaScript `Math.round`: round half away from zero towards +∞,
i.e. `⌊x + 1/2⌋`. -/
def jsRound (q : ℚ) : Int :=
  Int.floor (q + 1 / 2)

/-- `getBackoffMs` from `backoff.ts`. `Math.random()` is made explicit as
the `rand` argument (the tests mock it the same way), so the function is
pure and deterministic, as the spec requires. -/
def getBackoffMs (failureCount : Int) (options : BackoffOptions) (rand : ℚ) : Int :=
  if failureCount ≤ 0 then 0
  else
    let multiplier := options.multiplier.getD 2
    let jitterRatio := options.jitterRatio.getD (1 / 5)
    let raw := options.baseMs * multiplier ^ (max 0 (failureCount - 1)).toNat
    let capped := min raw options.maxMs
    let jitter := capped * jitterRatio * (rand - 1 / 2) * 2
    max 0 (jsRound (capped + jitter))

/-! ## JSON and storage (`registry.ts` persistence layer)

`persist` runs `JSON.stringify` over a `Record<string, DiscoveryRecord>`
and `load` runs `JSON.parse` inside `try/catch`.  JSON values are modelled
by an explicit inductive; all numbers stored in records are integer
millisecond timestamps and counters, so JSON numbers are `Int`. -/

/-- A JSON value as produced by `JSON.parse`. -/
inductive Json where
  | null
  | bool (b : Bool)
  | num (n : Int)
  | str (s : String)
  | arr (elems : List Json)
  | obj (fields : List (String × Json))

/-- The content of the registry's storage slot.  `missing` is
`getItem` returning nothing, `unparseable` is a string `JSON.parse`
throws on, and `json j` is a string that parses to `j`. -/
inductive StorageContent where
  | missing
  | unparseable
  | json (j : Json)

/-- `JSON.stringify` omits object properties whose value is `undefined`;
an `Option` field therefore contributes either one field or none. -/
def optField (k : String) : Option Json → List (String × Json)
  | none => []
  | some j => [(k, j)]

/-- The string value of a `DiscoveryState` enum member in `types.ts`. -/
def DiscoveryState.toKey : DiscoveryState → String
  | .Candidate => "candidate"
  | .Verified => "verified"
  | .Unverified => "unverified"

def encodeIdentity (i : DiscoveryDeviceIdentity) : Json :=
  .obj ([("devId", .str i.devId), ("name", .str i.name), ("category", .str i.category)]
    ++ optField "productId" (i.productId.map .str)
    ++ optField "icon" (i.icon.map .str))

def encodeProbe (p : ProbeState) : Json :=
  .obj (optField "lastProbeAt" (p.lastProbeAt.map .num)
    ++ optField "lastSuccessAt" (p.lastSuccessAt.map .num)
    ++ [("failureCount", .num p.failureCount)]
    ++ optField "backoffUntil" (p.backoffUntil.map .num))

def encodeFailure (f : FailureInfo) : Json :=
  .obj ([("time", .num f.time)]
    ++ optField "statusCode" (f.statusCode.map .num)
    ++ optField "message" (f.message.map .str))

def encodeRecord (r : DiscoveryRecord) : Json :=
  .obj ([("devId", .str r.devId), ("identity", encodeIdentity r.identity),
      ("state", .str r.state.toKey)]
    ++ optField "online" (r.online.map .bool)
    ++ [("probe", encodeProbe r.probe)]
    ++ optField "lastFailure" (r.lastFailure.map encodeFailure))

/-- The `persist` payload: a JSON object with one field per record, in
map iteration (insertion) order. -/
def encodeRecords (m : List (String × DiscoveryRecord)) : Json :=
  .obj (m.map (fun p => (p.1, encodeRecord p.2)))

/-- JavaScript property access `parsedObject[k]`. -/
def jget (j : Json) (k : String) : Option Json :=
  match j with
  | .obj fields => (fields.find? (fun p => p.1 == k)).map (·.2)
  | _ => none

def asStr : Json → Option String
  | .str s => some s
  | _ => none

def asNum : Json → Option Int
  | .num n => some n
  | _ => none

def asNat : Json → Option Nat
  | .num (Int.ofNat n) => some n
  | _ => none

def asBool : Json → Option Bool
  | .bool b => some b
  | _ => none

def decodeState (j : Json) : Option DiscoveryState :=
  match j with
  | .str "candidate" => some .Candidate
  | .str "verified" => some .Verified
  | .str "unverified" => some .Unverified
  | _ => none

def decodeIdentity (j : Json) : Option DiscoveryDeviceIdentity := do
  let devId ← (jget j "devId").bind asStr
  let name ← (jget j "name").bind asStr
  let category ← (jget j "category").bind asStr
  pure { devId, name, category,
         productId := (jget j "productId").bind asStr,
         icon := (jget j "icon").bind asStr }

def decodeProbe (j : Json) : Option ProbeState := do
  let failureCount ← (jget j "failureCount").bind asNat
  pure { lastProbeAt := (jget j "lastProbeAt").bind asNum,
         lastSuccessAt := (jget j "lastSuccessAt").bind asNum,
         failureCount,
         backoffUntil := (jget j "backoffUntil").bind asNum }

def decodeFailure (j : Json) : Option FailureInfo := do
  let time ← (jget j "time").bind asNum
  pure { time,
         statusCode := (jget j "statusCode").bind asNum,
         message := (jget j "message").bind asStr }

/-- Reading one stored entry back as a `DiscoveryRecord`: the semantics of
the untyped `as Record<string, DiscoveryRecord>` cast when the rest of the
code accesses the parsed object's fields. -/
def decodeRecord (j : Json) : Option DiscoveryRecord := do
  let devId ← (jget j "devId").bind asStr
  let identity ← (jget j "identity").bind decodeIdentity
  let state ← (jget j "state").bind decodeState
  let probe ← (jget j "probe").bind decodeProbe
  pure { devId, identity, state,
         online := (jget j "online").bind asBool,
         probe,
         lastFailure := (jget j "lastFailure").bind decodeFailure }

/-! ## Registry (`registry.ts`) -/

/-- JavaScript `Map.get` with string keys. -/
def mapGet (m : List (String × DiscoveryRecord)) (k : String) : Option DiscoveryRecord :=
  (m.find? (fun p => p.1 == k)).map (·.2)

/-- JavaScript `Map.set`: overwrite the existing entry in place, else
append a new entry (insertion order is preserved). -/
def mapSet (m : List (String × DiscoveryRecord)) (k : String) (v : DiscoveryRecord) :
    List (String × DiscoveryRecord) :=
  if m.any (fun p => p.1 == k) then m.map (fun p => if p.1 == k then (k, v) else p)
  else m ++ [(k, v)]

/-- JavaScript `Map.delete`. -/
def mapDelete (m : List (String × DiscoveryRecord)) (k : String) :
    List (String × DiscoveryRecord) :=
  m.filter (fun p => !(p.1 == k))

/-- The registry's observable state: its in-memory `records` map plus the
value sitting in the persistent storage slot. -/
structure RegistryState where
  records : List (String × DiscoveryRecord)
  storage : StorageContent

namespace DiscoveryRegistry

/-- `DiscoveryRegistry.load`, run by the constructor: missing storage
leaves the registry empty, a parse failure is caught and yields an empty
registry, and a parsed value is turned into entries via
`Object.entries(parsed ?? {})` (non-objects contribute no record
entries). -/
def loadRecords : StorageContent → List (String × DiscoveryRecord)
  | .missing => []
  | .unparseable => []
  | .json (.obj fields) =>
      fields.filterMap (fun p => (decodeRecord p.2).map (fun r => (p.1, r)))
  | .json _ => []

/-- Constructing `new DiscoveryRegistry(storage)` over a storage slot. -/
def fromStorage (storage : StorageContent) : RegistryState :=
  { records := loadRecords storage, storage }

/-- `DiscoveryRegistry.persist`: serialize the full record set into the
storage slot. -/
def persist (st : RegistryState) : RegistryState :=
  { st with storage := .json (encodeRecords st.records) }

def getRecord (st : RegistryState) (devId : String) : Option DiscoveryRecord :=
  mapGet st.records devId

def getRecords (st : RegistryState) : List DiscoveryRecord :=
  st.records.map (·.2)

def getState (st : RegistryState) (devId : String) : Option DiscoveryState :=
  (getRecord st devId).map (·.state)

/-- `createProbeState`: `{ failureCount: 0 }`. -/
def createProbeState : ProbeState :=
  { failureCount := 0 }

/-- `upsertCandidate`: create a `Candidate` record for an unknown device,
otherwise rebuild the record keeping the existing state, probe state and
last failure; `online ?? existing?.online` keeps the stored flag when the
argument is absent.  Returns the updated registry and the record. -/
def upsertCandidate (st : RegistryState) (identity : DiscoveryDeviceIdentity)
    (online : Option Bool) : RegistryState × DiscoveryRecord :=
  let existing := mapGet st.records identity.devId
  let probe := (existing.map (·.probe)).getD createProbeState
  let record : DiscoveryRecord :=
    { devId := identity.devId
      identity
      state := (existing.map (·.state)).getD .Candidate
      online := online.or (existing.bind (·.online))
      probe
      lastFailure := existing.bind (·.lastFailure) }
  (persist { st with records := mapSet st.records identity.devId record }, record)

/-- `updateOnline`: no-op on an unknown device, otherwise set `online`. -/
def updateOnline (st : RegistryState) (devId : String) (online : Bool) : RegistryState :=
  match mapGet st.records devId with
  | none => st
  | some record =>
      persist { st with
        records := mapSet st.records devId { record with online := some online } }

/-- `markVerified`: no-op on an unknown device, otherwise set
`state = Verified`, stamp the success, zero the failure count and clear
`backoffUntil` and `lastFailure`. -/
def markVerified (st : RegistryState) (devId : String) (successAt : Int) : RegistryState :=
  match mapGet st.records devId with
  | none => st
  | some record =>
      persist { st with
        records := mapSet st.records devId
          { record with
            state := .Verified
            probe := { record.probe with
              lastSuccessAt := some successAt
              failureCount := 0
              backoffUntil := none }
            lastFailure := none } }

/-- `markUnverified`: no-op on an unknown device, otherwise set
`state = Unverified` leaving every other field alone. -/
def markUnverified (st : RegistryState) (devId : String) : RegistryState :=
  match mapGet st.records devId with
  | none => st
  | some record =>
      persist { st with
        records := mapSet st.records devId { record with state := .Unverified } }

/-- `recordProbeAttempt`: no-op on an unknown device, otherwise stamp
`probe.lastProbeAt`. -/
def recordProbeAttempt (st : RegistryState) (devId : String) (at' : Int) : RegistryState :=
  match mapGet st.records devId with
  | none => st
  | some record =>
      persist { st with
        records := mapSet st.records devId
          { record with probe := { record.probe with lastProbeAt := some at' } } }

/-- `recordFailure`: no-op on an unknown device, otherwise store the
failure, bump `failureCount` and set `backoffUntil` to the (optional)
argument. -/
def recordFailure (st : RegistryState) (devId : String) (failure : FailureInfo)
    (backoffUntil : Option Int) : RegistryState :=
  match mapGet st.records devId with
  | none => st
  | some record =>
      persist { st with
        records := mapSet st.records devId
          { record with
            lastFailure := some failure
            probe := { record.probe with
              failureCount := record.probe.failureCount + 1
              backoffUntil := backoffUntil } } }

/-- Modelled from the spec: `resetToCandidate(deviceId)` is invoked by the
plugin's discovery settings handler but its implementation is not among
the provided sources.  Per the spec it "demotes back to `Candidate`" with
"probe history left intact (not zeroed)", and like every registry mutation
it is a no-op on an unknown device. -/
def resetToCandidate (st : RegistryState) (devId : String) : RegistryState :=
  match mapGet st.records devId with
  | none => st
  | some record =>
      persist { st with
        records := mapSet st.records devId { record with state := .Candidate } }

/-- Modelled from the spec: `removeRecord(deviceId)` is invoked by the
plugin's discovery settings handler and its `delete` message handler but
its implementation is not among the provided sources.  Per the spec it
"deletes permanently". -/
def removeRecord (st : RegistryState) (devId : String) : RegistryState :=
  match mapGet st.records devId with
  | none => st
  | some _ => persist { st with records := mapDelete st.records devId }

end DiscoveryRegistry


/-! ## Controller (`controller.ts`) -/

/-- `DiscoveryControllerOptions` from `controller.ts`.  The `onVerified`
callback is modelled by the Boolean "callback invoked" component returned
by `runProbeFinish` below. -/
structure DiscoveryControllerOptions where
  maxConcurrent : Nat
  debounceMs : Int
  backoffBaseMs : ℚ
  backoffMaxMs : ℚ
  cameraCategories : Option (List String) := none
  probeAllCategories : Option Bool := none
deriving Repr

/-- The built-in camera-likely Tuya category codes in `isProbeEligible`. -/
def defaultCameraCategoryList : List String :=
  ["sp", "wf_sp", "wf_sub_sp", "cdsxj", "sxj4g", "dghsxj", "bjsxj", "ksdjsxj",
   "znwnsxj", "sp_wnq", "ksdjml", "dmsxj", "sp_Gsmart", "xcjly", "ipcsxj1",
   "cwsxj", "dpsxj", "ipcsxj2", "ydsxj", "mobilecam", "acc_ctrl_cam",
   "trailcam", "one_stop_solution_cam", "pettv"]

/-- JavaScript `String.prototype.includes`. -/
def strIncludes (s t : String) : Bool :=
  decide (t.data <:+: s.data)

/-- `DiscoveryController.isProbeEligible`.  The TS parameter is a
possibly-missing `record: any`, hence `Option DiscoveryRecord`; the
`typeof category !== "string"` guard cannot fire in the embedding because
an embedded identity always carries a string category. -/
def isProbeEligible (options : DiscoveryControllerOptions) (record : Option DiscoveryRecord)
    (force : Bool) : Bool :=
  match record with
  | none => false
  | some record =>
    if force then true
    else if record.state = DiscoveryState.Unverified then true
    else if options.probeAllCategories.getD false then true
    else
      let allow := defaultCameraCategoryList ++ options.cameraCategories.getD []
      let category := record.identity.category
      if allow.contains category then true
      else
        let lowered := category.toLower
        strIncludes lowered "sxj" || strIncludes lowered "sp" || strIncludes lowered "cam"

/-- The decision part of `DiscoveryController.scheduleProbe`: `none` when
one of the early returns fires (no record; already `Verified` and not
forced; explicitly offline; fails the eligibility filter), otherwise
`some delay` where `delay` is handed to `setTimeout` before
`enqueueProbe` runs. -/
def scheduleProbeDelay (options : DiscoveryControllerOptions) (st : RegistryState)
    (devId : String) (immediate force : Bool) (now : Int) : Option Int :=
  match DiscoveryRegistry.getRecord st devId with
  | none => none
  | some record =>
    if force = false ∧ record.state = DiscoveryState.Verified then none
    else if record.online = some false then none
    else if isProbeEligible options (some record) force = false then none
    else
      let backoffUntil := record.probe.backoffUntil.getD 0
      let delayFromBackoff : Int := if force then 0 else max 0 (backoffUntil - now)
      some (if immediate then 0 else max options.debounceMs delayFromBackoff)

/-- What the awaited part of `runProbe` produced: the validator resolved
`ok`, the validator resolved with a failure result, or the stream-URL
provider or validator threw (`error.message` or `"validation-error"`). -/
inductive ProbeOutcome where
  | ok (statusCode : Option Int)
  | notOk (statusCode : Option Int) (error : Option String)
  | threw (message : String)
deriving DecidableEq, Repr

def ProbeOutcome.isOk : ProbeOutcome → Bool
  | .ok _ => true
  | _ => false

/-- `DiscoveryController.createFailure`. -/
def createFailure (now : Int) (statusCode : Option Int) (message : Option String) :
    FailureInfo :=
  { time := now, statusCode, message }

/-- The controller's private `recordFailure` helper: read the record, bump
the failure count, ask the Backoff Calculator for the next delay (default
multiplier and jitter), and store the failure with
`backoffUntil = now + backoffMs`.  No-op when the record is gone. -/
def controllerRecordFailure (options : DiscoveryControllerOptions) (st : RegistryState)
    (devId : String) (failure : FailureInfo) (now : Int) (rand : ℚ) : RegistryState :=
  match DiscoveryRegistry.getRecord st devId with
  | none => st
  | some record =>
    let failureCount : Int := record.probe.failureCount + 1
    let backoffMs := getBackoffMs failureCount
      { baseMs := options.backoffBaseMs, maxMs := options.backoffMaxMs } rand
    DiscoveryRegistry.recordFailure st devId failure (some (now + backoffMs))

/-- The part of `runProbe` before its first `await`: re-check that the
record exists, is not `Verified` (unless forced) and is still eligible,
then stamp `recordProbeAttempt`; `none` when `runProbe` returns without
probing. -/
def runProbeStart (options : DiscoveryControllerOptions) (st : RegistryState)
    (devId : String) (force : Bool) (now : Int) : Option RegistryState :=
  match DiscoveryRegistry.getRecord st devId with
  | none => none
  | some record =>
    if force = false ∧ record.state = DiscoveryState.Verified then none
    else if isProbeEligible options (some record) force = false then none
    else some (DiscoveryRegistry.recordProbeAttempt st devId now)

/-- The continuation of `runProbe` after its `await`s resolve, applied to
the registry state *at completion time* (the record may have been removed
while the probe was in flight).  Returns the new registry state and
whether the `onVerified` callback was invoked. -/
def runProbeFinish (options : DiscoveryControllerOptions) (st : RegistryState)
    (devId : String) (outcome : ProbeOutcome) (now : Int) (rand : ℚ) :
    RegistryState × Bool :=
  match outcome with
  | .ok _ => (DiscoveryRegistry.markVerified st devId now, true)
  | .notOk statusCode error =>
      (controllerRecordFailure options st devId
        (createFailure now statusCode (some (error.getD "validation-failed"))) now rand,
       false)
  | .threw message =>
      (controllerRecordFailure options st devId
        (createFailure now none (some message)) now rand, false)

/-! ## Controller queue/worker transition system -/

/-- The Controller's scheduling bookkeeping: `pending` is the
`Map<string, boolean>` of queued devices and their pending force flags,
`queue` the FIFO of device ids awaiting a worker slot, and `running` the
devices whose `runProbe` task has started and not yet completed —
`inFlight` is its length.  All of it is mutated only between suspension
points of the single event-loop thread. -/
structure CtrlState where
  pending : List (String × Bool)
  queue : List String
  running : List String
deriving DecidableEq, Repr

/-- JavaScript `Map.has` on the pending map. -/
def pendingHas (p : List (String × Bool)) (d : String) : Bool :=
  p.any (fun q => q.1 == d)

/-- JavaScript `Map.set` on the pending map. -/
def pendingSet (p : List (String × Bool)) (d : String) (force : Bool) :
    List (String × Bool) :=
  if p.any (fun q => q.1 == d) then p.map (fun q => if q.1 == d then (d, force) else q)
  else p ++ [(d, force)]

/-- JavaScript `Map.delete` on the pending map. -/
def pendingDelete (p : List (String × Bool)) (d : String) : List (String × Bool) :=
  p.filter (fun q => !(q.1 == d))

/-- `DiscoveryController.drainQueue`: while a worker slot is free
(`inFlight < maxConcurrent`) and the queue is non-empty, shift the queue
head, read and drop its pending entry, increment `inFlight` and start its
`runProbe` task (whose body runs asynchronously afterwards; its registry
effects are modelled by `runProbeStart`/`runProbeFinish`). -/
def drainQueueGo (mc : Nat) (pending : List (String × Bool)) (queue : List String)
    (running : List String) : CtrlState :=
  match queue with
  | [] => ⟨pending, [], running⟩
  | d :: rest =>
    if running.length < mc then
      drainQueueGo mc (pendingDelete pending d) rest (running ++ [d])
    else ⟨pending, d :: rest, running⟩

def drainQueue (mc : Nat) (s : CtrlState) : CtrlState :=
  drainQueueGo mc s.pending s.queue s.running

/-- `DiscoveryController.enqueueProbe`: a device already pending only has
its force flag upgraded (never a second queue entry); otherwise it is
recorded pending, pushed on the queue, and the queue is drained. -/
def enqueueProbe (mc : Nat) (s : CtrlState) (d : String) (force : Bool) : CtrlState :=
  if pendingHas s.pending d then
    if force then { s with pending := pendingSet s.pending d true } else s
  else
    drainQueue mc { pending := pendingSet s.pending d force,
                    queue := s.queue ++ [d], running := s.running }

/-- An event on the controller's single-threaded event loop that touches
the queue/worker bookkeeping: a scheduled debounce timer firing (which
runs `enqueueProbe` for its device), or an in-flight probe completing
(its `.finally` decrements `inFlight` and drains the queue again). -/
inductive CtrlEvent where
  | timerFire (d : String) (force : Bool)
  | complete (d : String)
deriving DecidableEq, Repr

def ctrlStep (mc : Nat) (s : CtrlState) : CtrlEvent → CtrlState
  | .timerFire d force => enqueueProbe mc s d force
  | .complete d =>
      if d ∈ s.running then drainQueue mc { s with running := s.running.erase d }
      else s

/-- The controller starts with no pending devices, queue or probes. -/
def ctrlInit : CtrlState :=
  { pending := [], queue := [], running := [] }

/-- Running the controller's event loop over a list of events. -/
def ctrlRun (mc : Nat) (events : List CtrlEvent) : CtrlState :=
  events.foldl (ctrlStep mc) ctrlInit

/-- The controller's queue bookkeeping invariant: the FIFO queue never
holds a device twice, and `pending` holds exactly the queued devices. -/
def CtrlInv (s : CtrlState) : Prop :=
  s.queue.Nodup ∧ ∀ e, pendingHas s.pending e = true ↔ e ∈ s.queue

/-! ## Concrete sample data for witnesses -/

def sampleIdentity : DiscoveryDeviceIdentity :=
  { devId := "dev1", name := "Front Door", category := "sp" }

def sampleRecord : DiscoveryRecord :=
  { devId := "dev1", identity := sampleIdentity, state := .Candidate,
    online := some true,
    probe := { lastProbeAt := some 5, failureCount := 2, backoffUntil := some 50 },
    lastFailure := some { time := 5, statusCode := some 454, message := some "timeout" } }

def sampleRegistry : RegistryState :=
  { records := [("dev1", sampleRecord)], storage := StorageContent.missing }

def emptyRegistry : RegistryState :=
  { records := [], storage := StorageContent.missing }

def sampleOptions : DiscoveryControllerOptions :=
  { maxConcurrent := 2, debounceMs := 100, backoffBaseMs := 1000, backoffMaxMs := 10000 }

def unverifiedRecord : DiscoveryRecord :=
  { devId := "dev2",
    identity := { devId := "dev2", name := "Garage", category := "switch" },
    state := .Unverified, online := some true, probe := { failureCount := 0 } }

def updatedIdentity : DiscoveryDeviceIdentity :=
  { devId := "dev1", name := "Front Door 2", category := "cwsxj", productId := some "p9" }

def unverifiedRegistry : RegistryState :=
  { records := [("dev2", unverifiedRecord)], storage := StorageContent.missing }
/-! ## Backoff calculator theorems -/

lemma jsRound_nonneg {q : ℚ} (h : 0 ≤ q) : 0 ≤ jsRound q := by
  rw [jsRound, Int.le_floor]
  push_cast
  linarith

example : getBackoffMs 0 ⟨1000, 10000, none, none⟩ (1/2) = 0 := by
  norm_num [getBackoffMs, jsRound]
example : getBackoffMs 1 ⟨1000, 10000, none, none⟩ (1/2) = 1000 := by
  norm_num [getBackoffMs, jsRound]
example : getBackoffMs 2 ⟨1000, 10000, none, none⟩ (1/2) = 2000 := by
  norm_num [getBackoffMs, jsRound]
example : getBackoffMs 5 ⟨1000, 10000, none, none⟩ (1/2) = 10000 := by
  norm_num [getBackoffMs, jsRound, show Int.toNat 4 = 4 from rfl, min_def]

/-- C1: `getBackoffMs 0 = 0`; for `failureCount ≥ 1` with positive base and
max and `jitterRatio = 0` the result is exactly
`min (base * multiplier ^ (failureCount - 1)) max` rounded to whole
milliseconds; with a nonnegative `jitterRatio` the result is the capped
value perturbed by a jitter term lying in
`[-jitterRatio * capped, jitterRatio * capped]`, floored at `0`. -/
theorem getBackoffMs_spec (fc : Int) (options : BackoffOptions) (rand jr : ℚ) :
    getBackoffMs 0 options rand = 0 ∧
    (1 ≤ fc → 0 < options.baseMs → 0 < options.maxMs →
      0 ≤ options.multiplier.getD 2 → options.jitterRatio = some 0 →
      getBackoffMs fc options rand =
        jsRound (min (options.baseMs * (options.multiplier.getD 2) ^ (fc - 1).toNat)
          options.maxMs)) ∧
    (1 ≤ fc → 0 < options.baseMs → 0 < options.maxMs →
      0 ≤ options.multiplier.getD 2 → options.jitterRatio = some jr →
      0 ≤ jr → 0 ≤ rand → rand ≤ 1 →
      ∃ j : ℚ,
        -(jr * min (options.baseMs * (options.multiplier.getD 2) ^ (fc - 1).toNat)
            options.maxMs) ≤ j ∧
        j ≤ jr * min (options.baseMs * (options.multiplier.getD 2) ^ (fc - 1).toNat)
            options.maxMs ∧
        getBackoffMs fc options rand =
          max 0 (jsRound (min (options.baseMs * (options.multiplier.getD 2) ^ (fc - 1).toNat)
            options.maxMs + j))) := by
  refine ⟨by simp [getBackoffMs], ?_, ?_⟩
  · intro hfc hbase hmax hmult hjr
    have hne : ¬ fc ≤ 0 := by omega
    have hm : max 0 (fc - 1) = fc - 1 := by omega
    have hcapped : 0 ≤ min (options.baseMs * (options.multiplier.getD 2) ^ (fc - 1).toNat)
        options.maxMs := by
      have : 0 ≤ options.baseMs * (options.multiplier.getD 2) ^ (fc - 1).toNat :=
        mul_nonneg hbase.le (pow_nonneg hmult _)
      exact le_min this hmax.le
    simp only [getBackoffMs, if_neg hne, hjr, Option.getD_some, hm]
    rw [mul_zero, zero_mul, zero_mul, add_zero]
    exact max_eq_right (jsRound_nonneg hcapped)
  · intro hfc hbase hmax hmult hjr hjrpos hr0 hr1
    have hne : ¬ fc ≤ 0 := by omega
    have hm : max 0 (fc - 1) = fc - 1 := by omega
    set capped := min (options.baseMs * (options.multiplier.getD 2) ^ (fc - 1).toNat)
        options.maxMs with hcdef
    have hcapped : 0 ≤ capped := by
      have : 0 ≤ options.baseMs * (options.multiplier.getD 2) ^ (fc - 1).toNat :=
        mul_nonneg hbase.le (pow_nonneg hmult _)
      exact le_min this hmax.le
    refine ⟨capped * jr * (rand - 1 / 2) * 2, ?_, ?_, ?_⟩
    · nlinarith [mul_nonneg hjrpos hcapped]
    · nlinarith [mul_nonneg hjrpos hcapped]
    · simp only [getBackoffMs, if_neg hne, hjr, Option.getD_some, hm]

theorem getBackoffMs_spec_witness :
    (1:Int) ≤ 2 ∧ (0:ℚ) < 1000 ∧ (0:ℚ) < 10000 ∧
    getBackoffMs 2 ⟨1000, 10000, none, some 0⟩ (1/2) =
      jsRound (min ((1000:ℚ) * (2:ℚ) ^ ((2:Int) - 1).toNat) 10000) ∧
    (∃ j : ℚ,
      -((1/5) * min ((1000:ℚ) * (2:ℚ) ^ ((2:Int) - 1).toNat) 10000) ≤ j ∧
      j ≤ (1/5) * min ((1000:ℚ) * (2:ℚ) ^ ((2:Int) - 1).toNat) 10000 ∧
      getBackoffMs 2 ⟨1000, 10000, none, some (1/5)⟩ (3/4) =
        max 0 (jsRound (min ((1000:ℚ) * (2:ℚ) ^ ((2:Int) - 1).toNat) 10000 + j))) := by
  refine ⟨by norm_num, by norm_num, by norm_num, ?_, ?_⟩
  · exact (getBackoffMs_spec 2 ⟨1000, 10000, none, some 0⟩ (1/2) 0).2.1
      (by norm_num) (by norm_num) (by norm_num) (by norm_num) rfl
  · exact (getBackoffMs_spec 2 ⟨1000, 10000, none, some (1/5)⟩ (3/4) (1/5)).2.2
      (by norm_num) (by norm_num) (by norm_num) (by norm_num) rfl
      (by norm_num) (by norm_num) (by norm_num)

/-! ## Map lemmas -/

lemma find?_cons_true {α : Type} (p : α → Bool) (a : α) (l : List α) (h : p a = true) :
    List.find? p (a :: l) = some a := by
  simp [List.find?, h]

lemma find?_cons_false {α : Type} (p : α → Bool) (a : α) (l : List α) (h : p a = false) :
    List.find? p (a :: l) = List.find? p l := by
  simp [List.find?, h]

lemma mapSet_cons_of_ne (p : String × DiscoveryRecord) (m : List (String × DiscoveryRecord))
    (k : String) (v : DiscoveryRecord) (hp : ¬ p.1 = k) :
    mapSet (p :: m) k v = p :: mapSet m k v := by
  have hp' : (p.1 == k) = false := by simpa using hp
  by_cases hm : m.any (fun q => q.1 == k) <;>
    simp [mapSet, List.any_cons, hp', hm] <;>
    exact fun h => absurd h hp

lemma mapGet_mapSet_self (m : List (String × DiscoveryRecord)) (k : String)
    (v : DiscoveryRecord) : mapGet (mapSet m k v) k = some v := by
  induction m with
  | nil => simp [mapGet, mapSet]
  | cons p m ih =>
    by_cases hp : p.1 = k
    · have hany : (p :: m).any (fun q => q.1 == k) = true := by
        simp [List.any_cons, hp]
      have hbeq : (p.1 == k) = true := by simpa using hp
      rw [mapSet, if_pos hany, List.map_cons, if_pos hbeq, mapGet,
        find?_cons_true _ _ _ (by simp)]
      rfl
    · rw [mapSet_cons_of_ne _ _ _ _ hp, mapGet,
        find?_cons_false _ _ _ (by simpa using hp)]
      exact ih

lemma find?_map_setter_ne (m : List (String × DiscoveryRecord)) (k : String)
    (v : DiscoveryRecord) (d : String) (hne : ¬ d = k) :
    (m.map (fun p => if p.1 == k then (k, v) else p)).find? (fun p => p.1 == d) =
      m.find? (fun p => p.1 == d) := by
  induction m with
  | nil => rfl
  | cons p m ih =>
    rw [List.map_cons]
    by_cases hp : p.1 = k
    · have hbeq : (p.1 == k) = true := by simpa using hp
      rw [if_pos hbeq,
        find?_cons_false _ _ _ (by simpa using fun h => hne h.symm),
        find?_cons_false _ _ _ (by simpa [hp] using fun h => hne h.symm)]
      exact ih
    · rw [if_neg (by simpa using hp : ¬ (p.1 == k) = true)]
      by_cases hd : p.1 = d
      · rw [find?_cons_true _ _ _ (by simpa using hd),
          find?_cons_true _ _ _ (by simpa using hd)]
      · rw [find?_cons_false _ _ _ (by simpa using hd),
          find?_cons_false _ _ _ (by simpa using hd)]
        exact ih

lemma find?_append_single_ne (m : List (String × DiscoveryRecord)) (k : String)
    (v : DiscoveryRecord) (d : String) (hne : ¬ d = k) :
    List.find? (fun p => p.1 == d) (m ++ [(k, v)]) = List.find? (fun p => p.1 == d) m := by
  have hkd : (((k, v) : String × DiscoveryRecord).1 == d) = false := by
    rw [beq_eq_false_iff_ne]
    exact fun h => hne h.symm
  induction m with
  | nil => rw [List.nil_append, find?_cons_false (fun p => p.1 == d) (k, v) [] hkd]
  | cons p m ih =>
    by_cases hd : p.1 = d
    · rw [List.cons_append, find?_cons_true _ _ _ (by simpa using hd),
        find?_cons_true _ _ _ (by simpa using hd)]
    · rw [List.cons_append, find?_cons_false _ _ _ (by simpa using hd),
        find?_cons_false _ _ _ (by simpa using hd)]
      exact ih

lemma mapGet_mapSet_ne (m : List (String × DiscoveryRecord)) (k : String)
    (v : DiscoveryRecord) (d : String) (hne : ¬ d = k) :
    mapGet (mapSet m k v) d = mapGet m d := by
  rw [mapSet]
  by_cases hm : m.any (fun q => q.1 == k)
  · rw [if_pos hm, mapGet, mapGet, find?_map_setter_ne _ _ _ _ hne]
  · rw [if_neg hm, mapGet, mapGet, find?_append_single_ne _ _ _ _ hne]

lemma mapGet_mapSet_isSome (m : List (String × DiscoveryRecord)) (k : String)
    (v : DiscoveryRecord) (d : String) (h : (mapGet m d).isSome) :
    (mapGet (mapSet m k v) d).isSome := by
  by_cases hdk : d = k
  · subst hdk; simp [mapGet_mapSet_self]
  · rwa [mapGet_mapSet_ne _ _ _ _ hdk]

lemma mapGet_mapDelete_self (m : List (String × DiscoveryRecord)) (k : String) :
    mapGet (mapDelete m k) k = none := by
  induction m with
  | nil => rfl
  | cons p m ih =>
    by_cases hp : p.1 = k
    · simpa [mapDelete, List.filter_cons, (by simpa using hp : (p.1 == k) = true)] using ih
    · have hp' : (p.1 == k) = false := by simpa using hp
      rw [mapDelete, List.filter_cons] at *
      simpa [hp', mapGet, find?_cons_false _ _ _ hp', mapDelete] using ih

/-! ## Registry theorems -/

/-- C4: for a known device, from any prior state, `markVerified` sets
`state = Verified`, stamps `probe.lastSuccessAt` with the success time,
zeroes `probe.failureCount`, clears `probe.backoffUntil` and
`lastFailure`, and leaves identity, online flag and `lastProbeAt` alone —
so immediately after the transition `state = Verified` holds together
with `failureCount = 0` and an absent `lastFailure`. -/
theorem markVerified_spec (st : RegistryState) (devId : String) (r : DiscoveryRecord)
    (t : Int) (h : DiscoveryRegistry.getRecord st devId = some r) :
    DiscoveryRegistry.getRecord (DiscoveryRegistry.markVerified st devId t) devId =
      some { devId := r.devId, identity := r.identity, state := DiscoveryState.Verified,
             online := r.online,
             probe := { lastProbeAt := r.probe.lastProbeAt, lastSuccessAt := some t,
                        failureCount := 0, backoffUntil := none },
             lastFailure := none } := by
  have h' : mapGet st.records devId = some r := h
  simp only [DiscoveryRegistry.markVerified, h']
  exact mapGet_mapSet_self st.records devId _

theorem markVerified_spec_witness :
    DiscoveryRegistry.getRecord sampleRegistry "dev1" = some sampleRecord ∧
    DiscoveryRegistry.getRecord
        (DiscoveryRegistry.markVerified sampleRegistry "dev1" 99) "dev1" =
      some { devId := "dev1", identity := sampleIdentity, state := DiscoveryState.Verified,
             online := some true,
             probe := { lastProbeAt := some 5, lastSuccessAt := some 99,
                        failureCount := 0, backoffUntil := none },
             lastFailure := none } :=
  ⟨rfl, markVerified_spec sampleRegistry "dev1" sampleRecord 99 rfl⟩

/-- C6: every registry mutator invoked with an unknown deviceId is a
silent no-op: it throws nothing (it is a total function) and returns the
registry state — records and persisted storage — unchanged. -/
theorem registry_unknownDevice_noop (st : RegistryState) (devId : String) (b : Bool)
    (t u : Int) (f : FailureInfo) (bu : Option Int)
    (h : DiscoveryRegistry.getRecord st devId = none) :
    DiscoveryRegistry.updateOnline st devId b = st ∧
    DiscoveryRegistry.markVerified st devId t = st ∧
    DiscoveryRegistry.markUnverified st devId = st ∧
    DiscoveryRegistry.recordProbeAttempt st devId u = st ∧
    DiscoveryRegistry.recordFailure st devId f bu = st := by
  have h' : mapGet st.records devId = none := h
  exact ⟨by simp only [DiscoveryRegistry.updateOnline, h'],
         by simp only [DiscoveryRegistry.markVerified, h'],
         by simp only [DiscoveryRegistry.markUnverified, h'],
         by simp only [DiscoveryRegistry.recordProbeAttempt, h'],
         by simp only [DiscoveryRegistry.recordFailure, h']⟩

theorem registry_unknownDevice_noop_witness :
    DiscoveryRegistry.getRecord emptyRegistry "ghost" = none ∧
    DiscoveryRegistry.updateOnline emptyRegistry "ghost" true = emptyRegistry ∧
    DiscoveryRegistry.markVerified emptyRegistry "ghost" 1 = emptyRegistry ∧
    DiscoveryRegistry.markUnverified emptyRegistry "ghost" = emptyRegistry ∧
    DiscoveryRegistry.recordProbeAttempt emptyRegistry "ghost" 2 = emptyRegistry ∧
    DiscoveryRegistry.recordFailure emptyRegistry "ghost" ⟨3, none, none⟩ none =
      emptyRegistry := by
  have h := registry_unknownDevice_noop emptyRegistry "ghost" true 1 2 ⟨3, none, none⟩
    none rfl
  exact ⟨rfl, h.1, h.2.1, h.2.2.1, h.2.2.2.1, h.2.2.2.2⟩

lemma option_or_self_or {α : Type} (a b : Option α) : a.or (a.or b) = a.or b := by
  cases a <;> rfl

lemma any_map_setter (m : List (String × DiscoveryRecord)) (k : String)
    (v : DiscoveryRecord) (hm : m.any (fun q => q.1 == k) = true) :
    (m.map (fun p => if p.1 == k then (k, v) else p)).any (fun q => q.1 == k) = true := by
  rcases List.any_eq_true.mp hm with ⟨p, hpmem, hpk⟩
  have hf : (fun q => if q.1 == k then (k, v) else q) p = (k, v) := by
    simp only [hpk, if_true]
  have hmem : ((k, v) : String × DiscoveryRecord) ∈
      m.map (fun q => if q.1 == k then (k, v) else q) := by
    have hx := List.mem_map_of_mem (fun q => if q.1 == k then (k, v) else q) hpmem
    rwa [hf] at hx
  exact List.any_eq_true.mpr ⟨(k, v), hmem, by simp⟩

lemma mapSet_mapSet_same (m : List (String × DiscoveryRecord)) (k : String)
    (v : DiscoveryRecord) : mapSet (mapSet m k v) k v = mapSet m k v := by
  by_cases hm : m.any (fun q => q.1 == k)
  · have hs : mapSet m k v = m.map (fun p => if p.1 == k then (k, v) else p) := by
      rw [mapSet, if_pos hm]
    rw [hs, mapSet, if_pos (any_map_setter m k v hm), List.map_map]
    refine List.map_congr_left (fun p _ => ?_)
    by_cases hp : p.1 = k <;> simp [Function.comp, hp]
  · have hs : mapSet m k v = m ++ [(k, v)] := by rw [mapSet, if_neg hm]
    have hany : ((m ++ [(k, v)]).any (fun q => q.1 == k)) = true := by
      simp [List.any_append]
    rw [hs, mapSet, if_pos hany, List.map_append]
    have h1 : m.map (fun p => if p.1 == k then (k, v) else p) = m := by
      have hmf : (m.any fun q => q.1 == k) = false := by
        cases hx : m.any fun q => q.1 == k
        · rfl
        · exact absurd hx hm
      have hall := List.any_eq_false.mp hmf
      conv_rhs => rw [← List.map_id m]
      refine List.map_congr_left (fun p hp => ?_)
      have hpf : (p.1 == k) = false := by simpa using hall p hp
      simp [hpf]
    have h2 : [((k : String), v)].map (fun p => if p.1 == k then (k, v) else p) = [(k, v)] := by
      simp
    rw [h1, h2]

/-- C8: `upsertCandidate` creates a zeroed `Candidate` record for an
unknown deviceId; for a known deviceId it replaces only the identity
fields and (when provided) the online flag while preserving state, probe
history and `lastFailure`; the produced record is what the registry then
stores; and a second call with the same identity and online argument
leaves the registry state and returned record exactly equal to the first
call's result (idempotence). -/
theorem upsertCandidate_spec (st : RegistryState) (identity : DiscoveryDeviceIdentity)
    (online : Option Bool) (r : DiscoveryRecord) :
    (DiscoveryRegistry.getRecord st identity.devId = none →
      (DiscoveryRegistry.upsertCandidate st identity online).2 =
        { devId := identity.devId, identity := identity,
          state := DiscoveryState.Candidate, online := online,
          probe := { failureCount := 0 }, lastFailure := none }) ∧
    (DiscoveryRegistry.getRecord st identity.devId = some r →
      (DiscoveryRegistry.upsertCandidate st identity online).2 =
        { devId := identity.devId, identity := identity, state := r.state,
          online := online.or r.online, probe := r.probe,
          lastFailure := r.lastFailure }) ∧
    DiscoveryRegistry.getRecord (DiscoveryRegistry.upsertCandidate st identity online).1
        identity.devId = some (DiscoveryRegistry.upsertCandidate st identity online).2 ∧
    DiscoveryRegistry.upsertCandidate
        (DiscoveryRegistry.upsertCandidate st identity online).1 identity online =
      DiscoveryRegistry.upsertCandidate st identity online := by
  refine ⟨?_, ?_, ?_, ?_⟩
  · intro h
    have h' : mapGet st.records identity.devId = none := h
    simp [DiscoveryRegistry.upsertCandidate, h', DiscoveryRegistry.createProbeState]
  · intro h
    have h' : mapGet st.records identity.devId = some r := h
    simp [DiscoveryRegistry.upsertCandidate, h']
  · exact mapGet_mapSet_self st.records identity.devId _
  · cases hm : mapGet st.records identity.devId with
    | none =>
        simp [DiscoveryRegistry.upsertCandidate, DiscoveryRegistry.persist,
          DiscoveryRegistry.createProbeState, hm, mapGet_mapSet_self,
          mapSet_mapSet_same, option_or_self_or]
    | some r0 =>
        simp [DiscoveryRegistry.upsertCandidate, DiscoveryRegistry.persist,
          DiscoveryRegistry.createProbeState, hm, mapGet_mapSet_self,
          mapSet_mapSet_same, option_or_self_or]

theorem upsertCandidate_spec_witness :
    DiscoveryRegistry.getRecord sampleRegistry "dev1" = some sampleRecord ∧
    (DiscoveryRegistry.upsertCandidate sampleRegistry updatedIdentity none).2 =
      { devId := "dev1", identity := updatedIdentity, state := DiscoveryState.Candidate,
        online := some true, probe := sampleRecord.probe,
        lastFailure := sampleRecord.lastFailure } ∧
    DiscoveryRegistry.upsertCandidate
        (DiscoveryRegistry.upsertCandidate sampleRegistry updatedIdentity none).1
        updatedIdentity none =
      DiscoveryRegistry.upsertCandidate sampleRegistry updatedIdentity none := by
  have h := upsertCandidate_spec sampleRegistry updatedIdentity none sampleRecord
  exact ⟨rfl, h.2.1 rfl, h.2.2.2⟩

/-- C5: `resetToCandidate` demotes a known record back to `Candidate`
leaving its probe history (`failureCount`, `backoffUntil`) and every
other field intact; `removeRecord` deletes the record permanently; and no
other registry operation ever destroys a record — every other mutator
leaves an existing record present. -/
theorem resetToCandidate_removeRecord_spec (st : RegistryState) (devId d : String)
    (r : DiscoveryRecord) (identity : DiscoveryDeviceIdentity) (online : Option Bool)
    (b : Bool) (t u : Int) (f : FailureInfo) (bu : Option Int)
    (h : DiscoveryRegistry.getRecord st devId = some r) :
    DiscoveryRegistry.getRecord (DiscoveryRegistry.resetToCandidate st devId) devId =
      some { devId := r.devId, identity := r.identity, state := DiscoveryState.Candidate,
             online := r.online, probe := r.probe, lastFailure := r.lastFailure } ∧
    DiscoveryRegistry.getRecord (DiscoveryRegistry.removeRecord st devId) devId = none ∧
    ((DiscoveryRegistry.getRecord st d).isSome →
      (DiscoveryRegistry.getRecord
        (DiscoveryRegistry.upsertCandidate st identity online).1 d).isSome ∧
      (DiscoveryRegistry.getRecord (DiscoveryRegistry.updateOnline st devId b) d).isSome ∧
      (DiscoveryRegistry.getRecord (DiscoveryRegistry.markVerified st devId t) d).isSome ∧
      (DiscoveryRegistry.getRecord (DiscoveryRegistry.markUnverified st devId) d).isSome ∧
      (DiscoveryRegistry.getRecord
        (DiscoveryRegistry.recordProbeAttempt st devId u) d).isSome ∧
      (DiscoveryRegistry.getRecord
        (DiscoveryRegistry.recordFailure st devId f bu) d).isSome ∧
      (DiscoveryRegistry.getRecord
        (DiscoveryRegistry.resetToCandidate st devId) d).isSome) := by
  have h' : mapGet st.records devId = some r := h
  refine ⟨?_, ?_, ?_⟩
  · simp only [DiscoveryRegistry.resetToCandidate, h']
    exact mapGet_mapSet_self st.records devId _
  · simp only [DiscoveryRegistry.removeRecord, h']
    exact mapGet_mapDelete_self st.records devId
  · intro hd
    have hd' : (mapGet st.records d).isSome := hd
    refine ⟨mapGet_mapSet_isSome _ _ _ _ hd', ?_, ?_, ?_, ?_, ?_, ?_⟩ <;>
      simp only [DiscoveryRegistry.updateOnline, DiscoveryRegistry.markVerified,
        DiscoveryRegistry.markUnverified, DiscoveryRegistry.recordProbeAttempt,
        DiscoveryRegistry.recordFailure, DiscoveryRegistry.resetToCandidate, h'] <;>
      exact mapGet_mapSet_isSome _ _ _ _ hd'

theorem resetToCandidate_removeRecord_spec_witness :
    DiscoveryRegistry.getRecord sampleRegistry "dev1" = some sampleRecord ∧
    DiscoveryRegistry.getRecord
        (DiscoveryRegistry.resetToCandidate sampleRegistry "dev1") "dev1" =
      some { devId := "dev1", identity := sampleIdentity, state := DiscoveryState.Candidate,
             online := some true, probe := sampleRecord.probe,
             lastFailure := sampleRecord.lastFailure } ∧
    DiscoveryRegistry.getRecord
        (DiscoveryRegistry.removeRecord sampleRegistry "dev1") "dev1" = none ∧
    (DiscoveryRegistry.getRecord
        (DiscoveryRegistry.markUnverified sampleRegistry "dev1") "dev1").isSome := by
  have h := resetToCandidate_removeRecord_spec sampleRegistry "dev1" "dev1" sampleRecord
    sampleIdentity none true 1 2 ⟨3, none, none⟩ none rfl
  exact ⟨rfl, h.1, h.2.1, ((h.2.2 (by rfl)).2.2.2.1)⟩

/-! ## Persistence round-trip -/

lemma decodeState_toKey (s : DiscoveryState) : decodeState (.str s.toKey) = some s := by
  cases s <;> rfl

lemma decodeIdentity_encodeIdentity (i : DiscoveryDeviceIdentity) :
    decodeIdentity (encodeIdentity i) = some i := by
  obtain ⟨devId, name, category, productId, icon⟩ := i
  cases productId <;> cases icon <;> rfl

lemma decodeProbe_encodeProbe (p : ProbeState) :
    decodeProbe (encodeProbe p) = some p := by
  obtain ⟨lastProbeAt, lastSuccessAt, failureCount, backoffUntil⟩ := p
  cases lastProbeAt <;> cases lastSuccessAt <;> cases backoffUntil <;> rfl

lemma decodeFailure_encodeFailure (f : FailureInfo) :
    decodeFailure (encodeFailure f) = some f := by
  obtain ⟨time, statusCode, message⟩ := f
  cases statusCode <;> cases message <;> rfl

lemma decodeRecord_encodeRecord (r : DiscoveryRecord) :
    decodeRecord (encodeRecord r) = some r := by
  obtain ⟨devId, identity, state, online, probe, lastFailure⟩ := r
  cases online <;> cases lastFailure <;>
    simp [decodeRecord, encodeRecord, jget, optField, decodeIdentity_encodeIdentity,
      decodeProbe_encodeProbe, decodeFailure_encodeFailure, decodeState_toKey,
      asStr, asBool]

lemma loadRecords_encodeRecords (m : List (String × DiscoveryRecord)) :
    DiscoveryRegistry.loadRecords (.json (encodeRecords m)) = m := by
  induction m with
  | nil => rfl
  | cons p m ih =>
    have ih' : (m.map (fun q => (q.1, encodeRecord q.2))).filterMap
        (fun q => (decodeRecord q.2).map (fun r => (q.1, r))) = m := by
      simpa [DiscoveryRegistry.loadRecords, encodeRecords] using ih
    simp [DiscoveryRegistry.loadRecords, encodeRecords, List.filterMap_cons,
      decodeRecord_encodeRecord, ih']

/-- C9: persisting the registry and then constructing a new registry over
the same storage slot reproduces the record set field-for-field; a
missing or unparseable stored payload yields an empty registry — the
loader is a total function, so nothing is thrown. -/
theorem registry_persist_reload (st : RegistryState) :
    (DiscoveryRegistry.fromStorage (DiscoveryRegistry.persist st).storage).records =
      st.records ∧
    (DiscoveryRegistry.fromStorage StorageContent.missing).records = [] ∧
    (DiscoveryRegistry.fromStorage StorageContent.unparseable).records = [] := by
  refine ⟨?_, rfl, rfl⟩
  simpa [DiscoveryRegistry.fromStorage, DiscoveryRegistry.persist] using
    loadRecords_encodeRecords st.records

/-! ## Controller eligibility theorems -/

/-- C10: the category/eligibility filter accepts every `Unverified`
record under a non-forced schedule, whatever its category, and a
non-forced `scheduleProbe` for such a record whose `online` flag is not
explicitly `false` is never rejected — it always reaches the timer-arming
step with some delay. -/
theorem unverified_isProbeEligible (options : DiscoveryControllerOptions)
    (st : RegistryState) (devId : String) (record : DiscoveryRecord)
    (immediate : Bool) (now : Int)
    (hstate : record.state = DiscoveryState.Unverified) :
    isProbeEligible options (some record) false = true ∧
    (DiscoveryRegistry.getRecord st devId = some record →
      record.online ≠ some false →
      (scheduleProbeDelay options st devId immediate false now).isSome = true) := by
  constructor
  · simp [isProbeEligible, hstate]
  · intro h honline
    simp [scheduleProbeDelay, h, hstate, isProbeEligible, honline]

theorem unverified_isProbeEligible_witness :
    unverifiedRecord.state = DiscoveryState.Unverified ∧
    isProbeEligible sampleOptions (some unverifiedRecord) false = true ∧
    (scheduleProbeDelay sampleOptions unverifiedRegistry "dev2" true false 0).isSome =
      true := by
  have h := unverified_isProbeEligible sampleOptions unverifiedRegistry "dev2"
    unverifiedRecord true 0 rfl
  exact ⟨rfl, h.1, h.2 rfl (by simp [unverifiedRecord])⟩

/-- C7 counterexample: with the record already removed when the probe
completes (empty registry), a successful completion leaves the registry
alone but still reports the `onVerified` callback as invoked — a callback
does fire for a device whose record no longer exists, contrary to the
claim. -/
theorem runProbeFinish_removed_callback_fires :
    DiscoveryRegistry.getRecord emptyRegistry "dev1" = none ∧
    (runProbeFinish sampleOptions emptyRegistry "dev1"
      (ProbeOutcome.ok (some 200)) 7 0).2 = true ∧
    (runProbeFinish sampleOptions emptyRegistry "dev1"
      (ProbeOutcome.ok (some 200)) 7 0).1 = emptyRegistry :=
  ⟨rfl, rfl, rfl⟩

/-- C7 (amended): if the device's record no longer exists when the probe
completes, the completion mutates no registry state — the success path's
`markVerified` and the failure path's `recordFailure` are no-ops, so no
record is recreated — and no callback fires on a failed completion; on a
successful completion, however, `onVerified` is still invoked even though
the record is gone. -/
theorem runProbeFinish_removedRecord (options : DiscoveryControllerOptions)
    (st : RegistryState) (devId : String) (outcome : ProbeOutcome) (now : Int)
    (rand : ℚ) (h : DiscoveryRegistry.getRecord st devId = none) :
    (runProbeFinish options st devId outcome now rand).1 = st ∧
    (runProbeFinish options st devId outcome now rand).2 = outcome.isOk := by
  have h' : mapGet st.records devId = none := h
  cases outcome <;>
    simp [runProbeFinish, ProbeOutcome.isOk, controllerRecordFailure,
      DiscoveryRegistry.markVerified, DiscoveryRegistry.getRecord, h']

theorem runProbeFinish_removedRecord_witness :
    DiscoveryRegistry.getRecord emptyRegistry "ghost" = none ∧
    (runProbeFinish sampleOptions emptyRegistry "ghost"
      (ProbeOutcome.notOk (some 500) none) 7 (1/2)).1 = emptyRegistry ∧
    (runProbeFinish sampleOptions emptyRegistry "ghost"
      (ProbeOutcome.notOk (some 500) none) 7 (1/2)).2 =
      (ProbeOutcome.notOk (some 500) none).isOk := by
  have h := runProbeFinish_removedRecord sampleOptions emptyRegistry "ghost"
    (ProbeOutcome.notOk (some 500) none) 7 (1/2) rfl
  exact ⟨rfl, h.1, h.2⟩

/-! ## Controller concurrency theorems -/

lemma drainQueueGo_running_le (mc : Nat) (pending : List (String × Bool))
    (queue : List String) (running : List String) (h : running.length ≤ mc) :
    (drainQueueGo mc pending queue running).running.length ≤ mc := by
  induction queue generalizing pending running with
  | nil => simpa [drainQueueGo] using h
  | cons d rest ih =>
    rw [drainQueueGo]
    by_cases hlt : running.length < mc
    · rw [if_pos hlt]
      exact ih _ _ (by simp only [List.length_append, List.length_singleton]; omega)
    · rw [if_neg hlt]
      simpa using h

lemma ctrlStep_running_le (mc : Nat) (s : CtrlState) (e : CtrlEvent)
    (h : s.running.length ≤ mc) : (ctrlStep mc s e).running.length ≤ mc := by
  cases e with
  | timerFire d force =>
    rw [ctrlStep, enqueueProbe]
    by_cases hp : pendingHas s.pending d
    · rw [if_pos hp]
      cases force <;> simpa using h
    · rw [if_neg hp]
      exact drainQueueGo_running_le _ _ _ _ h
  | complete d =>
    rw [ctrlStep]
    by_cases hd : d ∈ s.running
    · rw [if_pos hd]
      refine drainQueueGo_running_le _ _ _ _ ?_
      calc (s.running.erase d).length ≤ s.running.length :=
            (s.running.erase_sublist d).length_le
        _ ≤ mc := h
    · rw [if_neg hd]
      exact h

/-- C2: along any execution of the controller's event loop — any sequence
of timer-fire and probe-completion events from the initial state,
including a burst of more than `maxConcurrent` immediate schedules — the
number of `runProbe` tasks started and not yet completed never exceeds
`maxConcurrent`. -/
theorem maxConcurrent_bound (mc : Nat) (events : List CtrlEvent) :
    (ctrlRun mc events).running.length ≤ mc := by
  rw [ctrlRun]
  suffices h : ∀ s : CtrlState, s.running.length ≤ mc →
      (events.foldl (ctrlStep mc) s).running.length ≤ mc by
    exact h ctrlInit (by simp [ctrlInit])
  induction events with
  | nil => intro s h; simpa using h
  | cons e es ih =>
    intro s h
    exact ih _ (ctrlStep_running_le mc s e h)

lemma pendingHas_delete_self (p : List (String × Bool)) (d : String) :
    pendingHas (pendingDelete p d) d = false := by
  simp only [pendingHas, pendingDelete]
  rw [List.any_eq_false]
  intro x hx
  have hkeep := (List.mem_filter.mp hx).2
  simpa using hkeep

lemma pendingHas_delete_ne (p : List (String × Bool)) (d e : String) (h : ¬ e = d) :
    pendingHas (pendingDelete p d) e = pendingHas p e := by
  induction p with
  | nil => rfl
  | cons q p ih =>
    by_cases hq : q.1 = d
    · have hq1 : (q.1 == d) = true := by simpa using hq
      have hqe : (q.1 == e) = false := by
        rw [beq_eq_false_iff_ne, hq]
        exact fun hh => h hh.symm
      simp only [pendingDelete, pendingHas, List.filter_cons, hq1, Bool.not_true,
        List.any_cons, hqe, Bool.false_or] at ih ⊢
      simpa using ih
    · have hq1 : (q.1 == d) = false := by simpa using hq
      simp only [pendingDelete, pendingHas, List.filter_cons, hq1, Bool.not_false,
        if_true, List.any_cons] at ih ⊢
      rw [ih]

lemma pendingSet_cons_of_ne (q : String × Bool) (p : List (String × Bool)) (d : String)
    (f : Bool) (hq : ¬ q.1 = d) : pendingSet (q :: p) d f = q :: pendingSet p d f := by
  have hq' : (q.1 == d) = false := by simpa using hq
  by_cases hp : p.any (fun x => x.1 == d) <;>
    simp [pendingSet, List.any_cons, hq', hp] <;>
    exact fun h => absurd h hq

lemma pendingHas_set_self (p : List (String × Bool)) (d : String) (f : Bool) :
    pendingHas (pendingSet p d f) d = true := by
  induction p with
  | nil => simp [pendingSet, pendingHas]
  | cons q p ih =>
    by_cases hq : q.1 = d
    · have hany : ((q :: p).any fun x => x.1 == d) = true := by
        simp [List.any_cons, hq]
      have hq1 : (q.1 == d) = true := by simpa using hq
      rw [pendingSet, if_pos hany, List.map_cons, if_pos hq1, pendingHas, List.any_cons]
      simp
    · rw [pendingSet_cons_of_ne _ _ _ _ hq]
      have hq' : (q.1 == d) = false := by simpa using hq
      simpa [pendingHas, List.any_cons, hq'] using ih

lemma pendingAny_map_setter_ne (p : List (String × Bool)) (d : String) (f : Bool)
    (e : String) (h : ¬ e = d) :
    ((p.map (fun q => if q.1 == d then (d, f) else q)).any (fun q => q.1 == e)) =
      (p.any (fun q => q.1 == e)) := by
  have hde : (d == e) = false := by
    rw [beq_eq_false_iff_ne]
    exact fun hh => h hh.symm
  induction p with
  | nil => rfl
  | cons q p ih =>
    by_cases hq : q.1 = d
    · have hq1 : (q.1 == d) = true := by simpa using hq
      have hqe : (q.1 == e) = false := by
        rw [beq_eq_false_iff_ne, hq]
        exact fun hh => h hh.symm
      simp only [List.map_cons, hq1, if_true, List.any_cons, hde, hqe, Bool.false_or]
      exact ih
    · have hq1 : (q.1 == d) = false := by simpa using hq
      simp only [List.map_cons, hq1, Bool.false_eq_true, if_false, List.any_cons]
      rw [ih]

lemma pendingHas_set_ne (p : List (String × Bool)) (d : String) (f : Bool) (e : String)
    (h : ¬ e = d) : pendingHas (pendingSet p d f) e = pendingHas p e := by
  have hde : (d == e) = false := by
    rw [beq_eq_false_iff_ne]
    exact fun hh => h hh.symm
  rw [pendingSet]
  by_cases hp : p.any (fun q => q.1 == d)
  · rw [if_pos hp, pendingHas, pendingHas, pendingAny_map_setter_ne p d f e h]
  · rw [if_neg hp, pendingHas, pendingHas, List.any_append]
    simp [hde]

lemma drainQueueGo_inv (mc : Nat) (pending : List (String × Bool)) (queue : List String)
    (running : List String) (hnd : queue.Nodup)
    (hpq : ∀ e, pendingHas pending e = true ↔ e ∈ queue) :
    CtrlInv (drainQueueGo mc pending queue running) := by
  induction queue generalizing pending running with
  | nil =>
    rw [drainQueueGo]
    exact ⟨List.nodup_nil, hpq⟩
  | cons d rest ih =>
    rw [drainQueueGo]
    by_cases hlt : running.length < mc
    · rw [if_pos hlt]
      have hdrest : d ∉ rest := (List.nodup_cons.mp hnd).1
      apply ih _ _ (List.nodup_cons.mp hnd).2
      intro e
      by_cases he : e = d
      · subst he
        rw [pendingHas_delete_self]
        simp [hdrest]
      · rw [pendingHas_delete_ne _ _ _ he, hpq e]
        simp [he]
    · rw [if_neg hlt]
      exact ⟨hnd, hpq⟩

lemma enqueueProbe_inv (mc : Nat) (s : CtrlState) (d : String) (force : Bool)
    (h : CtrlInv s) : CtrlInv (enqueueProbe mc s d force) := by
  obtain ⟨hnd, hpq⟩ := h
  rw [enqueueProbe]
  by_cases hp : pendingHas s.pending d
  · rw [if_pos hp]
    cases force
    · rw [if_neg (by simp)]
      exact ⟨hnd, hpq⟩
    · rw [if_pos rfl]
      refine ⟨hnd, fun e => ?_⟩
      by_cases he : e = d
      · subst he
        rw [pendingHas_set_self]
        simp [(hpq e).mp hp]
      · rw [pendingHas_set_ne _ _ _ _ he]
        exact hpq e
  · rw [if_neg hp]
    have hdq : d ∉ s.queue := fun hmem => hp ((hpq d).mpr hmem)
    refine drainQueueGo_inv _ _ _ _ ?_ ?_
    · simp [List.nodup_append, hnd, hdq]
    · intro e
      by_cases he : e = d
      · subst he
        rw [pendingHas_set_self]
        simp
      · rw [pendingHas_set_ne _ _ _ _ he]
        rw [hpq e]
        simp [he]

lemma ctrlStep_inv (mc : Nat) (s : CtrlState) (e : CtrlEvent) (h : CtrlInv s) :
    CtrlInv (ctrlStep mc s e) := by
  obtain ⟨hnd, hpq⟩ := h
  cases e with
  | timerFire d force => exact enqueueProbe_inv mc s d force ⟨hnd, hpq⟩
  | complete d =>
    rw [ctrlStep]
    by_cases hd : d ∈ s.running
    · rw [if_pos hd]
      exact drainQueueGo_inv _ _ _ _ hnd hpq
    · rw [if_neg hd]
      exact ⟨hnd, hpq⟩

lemma ctrlRun_inv (mc : Nat) (events : List CtrlEvent) : CtrlInv (ctrlRun mc events) := by
  rw [ctrlRun]
  suffices h : ∀ s : CtrlState, CtrlInv s → CtrlInv (events.foldl (ctrlStep mc) s) by
    refine h ctrlInit ⟨List.nodup_nil, fun e => ?_⟩
    simp [ctrlInit, pendingHas]
  induction events with
  | nil => intro s h; simpa using h
  | cons e es ih =>
    intro s h
    exact ih _ (ctrlStep_inv mc s e h)

/-- C3 counterexample: with `maxConcurrent = 2`, two timer firings for the
same device — the second arriving after the first probe has started (its
pending entry is deleted when the probe is dequeued) — put two probes for
that one device in flight simultaneously, refuting the claim that no
device is ever probed twice concurrently. -/
theorem duplicate_inflight_probes :
    (ctrlRun 2 [CtrlEvent.timerFire "cam" false, CtrlEvent.timerFire "cam" false]).running
      = ["cam", "cam"] ∧
    ¬ (ctrlRun 2 [CtrlEvent.timerFire "cam" false,
        CtrlEvent.timerFire "cam" false]).running.Nodup := by
  constructor
  · rfl
  · decide

/-- C3 (amended): the dedupe guarantee covers the queued phase only — at
every point of any execution no device has two entries in the scheduling
queue, `pending` holds exactly the queued devices, and a timer firing for
an already-queued device never changes the queue (its pending force flag
is merely upgraded); a firing for a device whose probe is already in
flight, however, can start a second concurrent probe. -/
theorem queue_never_duplicates (mc : Nat) (events : List CtrlEvent) (d : String)
    (force : Bool) :
    (ctrlRun mc events).queue.Nodup ∧
    (∀ e, pendingHas (ctrlRun mc events).pending e = true ↔ e ∈ (ctrlRun mc events).queue) ∧
    (pendingHas (ctrlRun mc events).pending d = true →
      (ctrlStep mc (ctrlRun mc events) (CtrlEvent.timerFire d force)).queue =
        (ctrlRun mc events).queue) := by
  obtain ⟨hnd, hpq⟩ := ctrlRun_inv mc events
  refine ⟨hnd, hpq, fun hp => ?_⟩
  rw [ctrlStep, enqueueProbe, if_pos hp]
  cases force
  · rw [if_neg (by simp)]
  · rw [if_pos rfl]

theorem queue_never_duplicates_witness :
    pendingHas (ctrlRun 0 [CtrlEvent.timerFire "cam" false]).pending "cam" = true ∧
    (ctrlStep 0 (ctrlRun 0 [CtrlEvent.timerFire "cam" false])
        (CtrlEvent.timerFire "cam" true)).queue =
      (ctrlRun 0 [CtrlEvent.timerFire "cam" false]).queue ∧
    (ctrlRun 0 [CtrlEvent.timerFire "cam" false]).queue.Nodup := by
  have h := queue_never_duplicates 0 [CtrlEvent.timerFire "cam" false] "cam" true
  exact ⟨rfl, h.2.2 rfl, h.1⟩
